import Mathlib

/-!
Verification development for the accutools-core sources (`src/lib.rs`,
`src/main.rs`): a shallow embedding in Lean 4 of the document model, the
deposit-normalization pass, the layout selector, the currency-cell and
totals-row rendering of the typesetter, the Table-3 row classification of
the HTML extractor, and the line wrapper, together with theorems settling
the specification claims about them.

Strings that the algorithms traverse character by character are modelled
as `List Char`; this is exact for ASCII data, where Rust's byte indices
(`str::len`, slicing) coincide with character indices.  Opaque field
values of the document model are kept as Lean `String`s.
-/

/- ### Line wrapper (`split_into_lines`, identical in src/lib.rs:464-489
and src/main.rs:806-831)

The Rust `while` loop repeatedly pops the last produced line and splits
it while it exceeds `max_length`.  The loop is embedded with explicit
fuel: `splitLoop` returns `none` when the fuel runs out, so a result of
`some lines` corresponds exactly to a terminating run of the Rust loop. -/

/-- Predicate for the break characters of the wrapper: the Rust filter
`char.eq(&' ') || char.eq(&'-')`. -/
def isBreakChar (c : Char) : Bool := c == ' ' || c == '-'

/-- Index of the last break character of a list, if any: the Rust chain
`.chars().enumerate().filter(|(_, char)| ...).last()` restricted to the
index component. -/
def lastBreakIndex : List Char → Option Nat
  | [] => none
  | c :: rest =>
    match lastBreakIndex rest with
    | some i => some (i + 1)
    | none => if isBreakChar c then some 0 else none

/-- One iteration body of the wrapper loop: given the popped last line
(of length `> maxLength`), produce the two lines pushed back.  Mirrors
src/lib.rs:473-486: scan the first `maxLength + 1` characters for the
last break character; split after it if found, otherwise force-split at
`maxLength + 1` characters appending a hyphen; the continuation is
prefixed with one space. -/
def splitLast (maxLength : Nat) (lastLine : List Char) : List Char × List Char :=
  match lastBreakIndex (lastLine.take (maxLength + 1)) with
  | some i => (lastLine.take (i + 1), ' ' :: lastLine.drop (i + 1))
  | none => (lastLine.take (maxLength + 1) ++ ['-'], ' ' :: lastLine.drop (maxLength + 1))

/-- The wrapper's `while` loop with explicit fuel.  `none` means the fuel
was exhausted before the loop condition became false. -/
def splitLoop (maxLength : Nat) : Nat → List (List Char) → Option (List (List Char))
  | 0, _ => none
  | fuel + 1, lines =>
    match lines.getLast? with
    | none => some lines
    | some lastLine =>
      if maxLength < lastLine.length then
        splitLoop maxLength fuel
          (lines.dropLast ++ [(splitLast maxLength lastLine).1, (splitLast maxLength lastLine).2])
      else
        some lines

/-- The wrapper `split_into_lines` (src/lib.rs:464-489): empty input
yields no lines, otherwise run the loop starting from the single input
line. -/
def split_into_lines (string : List Char) (maxLength : Nat) (fuel : Nat) :
    Option (List (List Char)) :=
  if string.isEmpty then some [] else splitLoop maxLength fuel [string]

/- ### Document model (src/lib.rs:12-63) -/

/-- Document type enum (src/lib.rs:13-17). -/
inductive DocType
  | Invoice
  | Receipt
  | Quote
deriving DecidableEq, BEq

/-- Layout variant enum (src/lib.rs:19-23). -/
inductive DocLayout
  | Standard
  | StandardWithDiscounts
  | Receipt
deriving DecidableEq, BEq

/-- Line item of the document model (src/lib.rs:48-57). -/
structure ItemLine where
  code : String
  description : String
  quantity : String
  unit_price : String
  amount : String
  uom : String
  discount : Option String
  taxable : Bool
deriving DecidableEq

/-- Named amount used for Totals and Payments rows (src/lib.rs:60-63). -/
structure Amount where
  name : String
  value : String
deriving DecidableEq

/-- The document model `ReceiptInfo` (src/lib.rs:26-45). -/
structure ReceiptInfo where
  title : String
  date : String
  company_name : String
  company_info_line : String
  customer_info : String
  transaction_number : String
  order_id : String
  vat_number : String
  doc_number : String
  doc_type : DocType
  item_lines : List ItemLine
  delivery_tickets : String
  weigh_tickets : String
  totals : List Amount
  payments : List Amount
  amount_due : String
  employee : String
  slogan : String
deriving DecidableEq

/- ### Model normalizer `ReceiptInfo::pre_pass` (src/lib.rs:109-138)

The pass parses the removed payment's value with `str::parse::<f64>`,
takes the absolute value, renders it in words with the external
`number_to_words` crate, and formats it with `format!("{:.2}")`.  The
numeric value is modelled at cent precision: `pre_pass` is parameterized
by `parse`, a model of `str::parse::<f64>` returning the value in cents
(`none` on parse failure), and by `ntw`, a model of `number_to_words`
taking the absolute value in cents.  On decimal strings with at most two
fractional digits this is exact: the parsed `f64` rounds back to the
source decimal under two-decimal formatting. -/

/-- Two-digit rendering of a cent remainder (`k < 100` in use). -/
def pad2 (k : Nat) : String :=
  if k < 10 then "0" ++ toString k else toString k

/-- Two-decimal formatting `format!("{value:.2}")` of a non-negative
value given in cents. -/
def formatCents (n : Nat) : String :=
  toString (n / 100) ++ "." ++ pad2 (n % 100)

/-- Numeric value of a decimal digit string, `none` when empty or not
all digits. -/
def digitsToNat : List Char → Option Nat
  | [] => none
  | [c] => if c.isDigit then some (c.toNat - '0'.toNat) else none
  | c :: rest =>
    if c.isDigit then
      (digitsToNat rest).map (fun n => (c.toNat - '0'.toNat) * 10 ^ rest.length + n)
    else none

/-- Parse an unsigned decimal `digits['.'(one or two digits)]` into
cents. -/
def parseCentsNat (l : List Char) : Option Nat :=
  match l.splitOn '.' with
  | [intPart] => (digitsToNat intPart).map (fun n => n * 100)
  | [intPart, fracPart] =>
    match digitsToNat intPart, fracPart with
    | some n, [d] =>
      if d.isDigit then some (n * 100 + (d.toNat - '0'.toNat) * 10) else none
    | some n, [d1, d2] =>
      if d1.isDigit && d2.isDigit then
        some (n * 100 + (d1.toNat - '0'.toNat) * 10 + (d2.toNat - '0'.toNat))
      else none
    | _, _ => none
  | _ => none

/-- Model of `str::parse::<f64>` at cent precision, on the subdomain of
plain signed decimals with at most two fractional digits (where the
parse-then-format-two-decimals pipeline of the source is exact).
Returns the value in cents; `none` models a parse error. -/
def parseCents (s : String) : Option Int :=
  match s.toList with
  | '-' :: rest => (parseCentsNat rest).map (fun n => -(n : Int))
  | '+' :: rest => (parseCentsNat rest).map (fun n => (n : Int))
  | l => (parseCentsNat l).map (fun n => (n : Int))

/-- Model of `self.payments.iter().position(|tender|
tender.name.eq("Pay on Account"))` followed by `remove(index)`
(src/lib.rs:110-114): the first entry named "Pay on Account" together
with the list with that entry removed, or `none` if there is no such
entry. -/
def removeFirstPayOnAccount : List Amount → Option (Amount × List Amount)
  | [] => none
  | a :: rest =>
    if a.name == "Pay on Account" then some (a, rest)
    else (removeFirstPayOnAccount rest).map (fun p => (p.1, a :: p.2))

/-- The normalizer `ReceiptInfo::pre_pass` (src/lib.rs:109-138).  The
Rust method mutates `&mut self` and returns `Result<(), Error>`; this is
embedded as a function returning the final state of the document paired
with `true` for `Ok` and `false` for the early `Err` return of the `?`
operator on parse failure.  `parse` models `str::parse::<f64>` in cents
and `ntw` models `number_to_words` of the absolute value in cents. -/
def pre_pass (parse : String → Option Int) (ntw : Nat → String) (r : ReceiptInfo) :
    ReceiptInfo × Bool :=
  match removeFirstPayOnAccount r.payments with
  | none => (r, true)
  | some (tender, remaining) =>
    match parse tender.value with
    | none => ({ r with payments := remaining }, false)
    | some c =>
      let value_abs := c.natAbs
      let number_in_words := ntw value_abs
      ({ r with
          payments := remaining,
          item_lines := r.item_lines ++
            [{ code := ""
               description :=
                 "Received as cash deposit the sum of " ++ number_in_words ++
                   " dollars for materials."
               quantity := ""
               unit_price := ""
               amount := formatCents value_abs
               uom := ""
               discount := none
               taxable := false }],
          totals := [{ name := "Total:", value := formatCents value_abs }] },
        true)


/- ### Layout selector (src/lib.rs:198-213) -/

/-- The layout selection `match` at the top of `gen_pdf`
(src/lib.rs:198-213), extracted as the pure function of the document it
is. -/
def layout_of (receipt : ReceiptInfo) : DocLayout :=
  match receipt.doc_type with
  | DocType.Invoice | DocType.Quote =>
    let contains_discounts :=
      (!(receipt.doc_type == DocType.Receipt)) &&
        receipt.item_lines.any (fun line => line.discount.isSome)
    if contains_discounts then DocLayout.StandardWithDiscounts else DocLayout.Standard
  | DocType.Receipt => DocLayout.Receipt

/- ### Typesetter: column configuration and currency cells
(src/lib.rs:292-331 and 380-391) -/

/-- The `price_index` component of the per-layout column configuration
(src/lib.rs:294-331): index into the vertical-line table of the unit
price column, `none` when the layout has no such column. -/
def price_index : DocLayout → Option Nat
  | DocLayout.Standard => some 4
  | DocLayout.StandardWithDiscounts => some 4
  | DocLayout.Receipt => none

/-- The `disc_index` component of the per-layout column configuration
(src/lib.rs:294-331). -/
def disc_index : DocLayout → Option Nat
  | DocLayout.Standard => none
  | DocLayout.StandardWithDiscounts => some 5
  | DocLayout.Receipt => none

/-- The `total_index` component of the per-layout column configuration
(src/lib.rs:294-331). -/
def total_index : DocLayout → Option Nat
  | DocLayout.Standard => some 5
  | DocLayout.StandardWithDiscounts => some 6
  | DocLayout.Receipt => some 1

/-- The `lpad!` macro of src/lib.rs:6-10: `format!("${:>11}", arg)`,
i.e. a dollar sign followed by the argument right-justified in a field
of width 11 (space padded on the left; no truncation when longer). -/
def lpad (s : String) : String :=
  "$" ++ String.mk (List.replicate (11 - s.length) ' ') ++ s

/-- Text emitted for the unit-price cell of one item line
(src/lib.rs:381-383): whenever the layout has a price column, a single
`use_text` call with the `lpad!`-formatted unit price is emitted,
unconditionally on the content of `unit_price`.  `none` means no text
operation is emitted. -/
def priceCellText (layout : DocLayout) (line : ItemLine) : Option String :=
  match price_index layout with
  | some _ => some (lpad line.unit_price)
  | none => none

/-- Text emitted for the discount cell of one item line
(src/lib.rs:384-388): emitted only when the layout has a discount column
and the line's discount is present. -/
def discountCellText (layout : DocLayout) (line : ItemLine) : Option String :=
  match disc_index layout with
  | some _ =>
    match line.discount with
    | some d => some (lpad d)
    | none => none
  | none => none

/-- Text emitted for the amount/total cell of one item line
(src/lib.rs:389-391): whenever the layout has a total column, the
`lpad!`-formatted amount is emitted unconditionally. -/
def amountCellText (layout : DocLayout) (line : ItemLine) : Option String :=
  match total_index layout with
  | some _ => some (lpad line.amount)
  | none => none

/- ### Typesetter: totals block (src/lib.rs:409-429) -/

/-- Fonts available to the typesetter (src/lib.rs:184-192). -/
inductive FontKind
  | regular
  | bold
  | mono
deriving DecidableEq

/-- Label text and font emitted for one Totals row (src/lib.rs:415-429):
an empty-name entry draws a separator line and emits no text (`none`);
otherwise the entry's name is emitted verbatim, in the bold font exactly
when the name is "Total:". -/
def totalsRowLabel (a : Amount) : Option (String × FontKind) :=
  if a.name.isEmpty then none
  else some (a.name, if a.name == "Total:" then FontKind.bold else FontKind.regular)

/- ### Extractor: Table-3 row classification (src/main.rs:704-748)

The HTML/DOM traversal itself is external (the `scraper` crate); the
repository's own logic starts from the cleaned cell texts of each row.
A Table-3 row is therefore modelled as the five cleaned cell strings the
loop reads (`code`, `description`, `quantity`, `price`, `amount`), and
the loop plus the delivery/weigh-ticket fix-up is embedded over a list
of such rows.  Cell strings are `List Char` since the fix-up filters
them character by character. -/

/-- Cleaned cell texts of one row of Table 3 (src/main.rs:710-715). -/
structure Table3Row where
  code : List Char
  description : List Char
  quantity : List Char
  price : List Char
  amount : List Char
deriving DecidableEq

/-- Item line of the `main.rs` document model (src/main.rs:78-84). -/
structure ItemLineMain where
  code : List Char
  description : List Char
  quantity : List Char
  price : List Char
  amount : List Char
deriving DecidableEq

/-- Rust `char::is_ascii_punctuation`: the four ASCII punctuation
ranges. -/
def isAsciiPunctuation (c : Char) : Bool :=
  (0x21 ≤ c.toNat && c.toNat ≤ 0x2F) || (0x3A ≤ c.toNat && c.toNat ≤ 0x40) ||
    (0x5B ≤ c.toNat && c.toNat ≤ 0x60) || (0x7B ≤ c.toNat && c.toNat ≤ 0x7E)

/-- Rust `char::is_whitespace` restricted to the ASCII range (the
modelled data is ASCII): space, tab, line feed, vertical tab, form feed,
carriage return. -/
def isRustWhitespace (c : Char) : Bool :=
  c == ' ' || c == '\t' || c == '\n' || c == '\x0b' || c == '\x0c' || c == '\r'

/-- The ticket-description character filter of src/main.rs:733-736:
keep decimal digits, ASCII punctuation, and whitespace. -/
def keepTicketChar (c : Char) : Bool :=
  c.isDigit || isAsciiPunctuation c || isRustWhitespace c

/-- Rust `str::trim`: remove leading and trailing whitespace. -/
def trimChars (l : List Char) : List Char :=
  ((l.dropWhile isRustWhitespace).reverse.dropWhile isRustWhitespace).reverse

/-- The classification loop over Table-3 rows (src/main.rs:709-730):
code "2300" rows feed `dt_nums`, code "2301" rows feed `wt_nums`, every
other row becomes an `ItemLine`, all in row order. -/
def classifyRows : List Table3Row → List ItemLineMain × List (List Char) × List (List Char)
  | [] => ([], [], [])
  | r :: rest =>
    let p := classifyRows rest
    if r.code = "2300".toList then (p.1, r.description :: p.2.1, p.2.2)
    else if r.code = "2301".toList then (p.1, p.2.1, r.description :: p.2.2)
    else
      ({ code := r.code, description := r.description, quantity := r.quantity,
         price := r.price, amount := r.amount } :: p.1, p.2.1, p.2.2)

/-- Filter and trim one captured ticket description
(src/main.rs:733-737): keep digits, ASCII punctuation and whitespace,
then trim. -/
def ticketLine (s : List Char) : List Char :=
  trimChars (s.filter keepTicketChar)

/-- The ticket fix-up fold of src/main.rs:732-739: append each filtered,
trimmed description followed by one space, then `String::pop` the final
character. -/
def joinTickets (xs : List (List Char)) : List Char :=
  (xs.foldl (fun acc s => acc ++ ticketLine s ++ [' ']) []).dropLast

/-- Whole Table-3 processing (src/main.rs:704-748): item lines from the
non-sentinel rows, and the delivery-ticket and weigh-ticket aggregate
strings from the code-"2300" and code-"2301" rows. -/
def processTable3 (rows : List Table3Row) : List ItemLineMain × List Char × List Char :=
  let p := classifyRows rows
  (p.1, joinTickets p.2.1, joinTickets p.2.2)

/-- Joining a list of strings with single-space separators (the
specification's reading of the ticket aggregation). -/
def sepJoin : List (List Char) → List Char
  | [] => []
  | [x] => x
  | x :: xs => x ++ ' ' :: sepJoin xs

/-- Concatenation of the filtered, trimmed ticket lines, each followed
by one space: the unfolded form of the aggregation fold. -/
def ticketConcat : List (List Char) → List Char
  | [] => []
  | s :: rest => ticketLine s ++ [' '] ++ ticketConcat rest

/- ### Sanity evaluations of the embedded definitions -/

example : split_into_lines "ab cd".toList 3 2 =
    some ["ab ".toList, " cd".toList] := by decide

example : split_into_lines "aaaaa".toList 3 10 =
    some ["aaaa-".toList, " a".toList] := by decide

example : split_into_lines "aaaaaaa".toList 3 50 = none := by decide

example : parseCents "-150.00" = some (-15000) := by decide
example : parseCents "12.5" = some 1250 := by decide
example : parseCents "7" = some 700 := by decide
example : parseCents "abc" = none := by decide
example : formatCents 15000 = "150.00" := by rfl
example : formatCents 1205 = "12.05" := by rfl

example : lpad "" = "$           " := by rfl
example : lpad "150.00" = "$     150.00" := by rfl

/- ### Helper lemmas about the line wrapper -/

/-- The last-break index points inside the scanned list. -/
theorem lastBreakIndex_lt_length {l : List Char} {i : Nat}
    (h : lastBreakIndex l = some i) : i < l.length := by
  induction l generalizing i with
  | nil => simp [lastBreakIndex] at h
  | cons c rest ih =>
    simp only [lastBreakIndex] at h
    cases hr : lastBreakIndex rest with
    | some j =>
      rw [hr] at h
      cases h
      exact Nat.succ_lt_succ (ih hr)
    | none =>
      rw [hr] at h
      by_cases hb : isBreakChar c = true
      · simp [hb] at h
        cases h
        simp
      · simp [hb] at h

/-- A list with no break characters has no last-break index. -/
theorem lastBreakIndex_eq_none {l : List Char}
    (h : ∀ c ∈ l, isBreakChar c = false) : lastBreakIndex l = none := by
  induction l with
  | nil => rfl
  | cons c rest ih =>
    simp only [lastBreakIndex]
    rw [ih (fun d hd => h d (List.mem_cons_of_mem c hd))]
    simp [h c (List.mem_cons_self c rest)]

/-- The head line pushed by one split never exceeds `maxLength + 2`
characters: a break split keeps at most `maxLength + 1` characters and a
forced split keeps `maxLength + 1` characters plus the synthetic
hyphen. -/
theorem splitLast_fst_length (maxLength : Nat) (lastLine : List Char) :
    (splitLast maxLength lastLine).1.length ≤ maxLength + 2 := by
  unfold splitLast
  cases hb : lastBreakIndex (lastLine.take (maxLength + 1)) with
  | some i =>
    have hi := lastBreakIndex_lt_length hb
    rw [List.length_take] at hi
    have : i + 1 ≤ maxLength + 1 := Nat.lt_of_lt_of_le hi (min_le_left ..)
    simp only
    calc (lastLine.take (i + 1)).length ≤ i + 1 := by
          rw [List.length_take]; exact min_le_left ..
      _ ≤ maxLength + 2 := Nat.le_succ_of_le this
  | none =>
    simp only [List.length_append, List.length_take, List.length_singleton]
    omega

/-- Loop invariant for the length bound: if every line except the last
is within `maxLength + 2` and the loop terminates, every produced line
is within `maxLength + 2`. -/
theorem splitLoop_bound (maxLength : Nat) :
    ∀ (fuel : Nat) (lines out : List (List Char)),
    splitLoop maxLength fuel lines = some out →
    (∀ l ∈ lines.dropLast, l.length ≤ maxLength + 2) →
    ∀ l ∈ out, l.length ≤ maxLength + 2 := by
  intro fuel
  induction fuel with
  | zero => intro lines out h; simp [splitLoop] at h
  | succ n ih =>
    intro lines out h hinv
    rw [splitLoop] at h
    split at h
    · rename_i hg
      injection h with h
      subst h
      have : lines = [] := List.getLast?_eq_none_iff.mp hg
      subst this
      intro l hl
      simp at hl
    · rename_i lastLine hg
      by_cases hc : maxLength < lastLine.length
      · rw [if_pos hc] at h
        refine ih _ _ h ?_
        intro l hl
        rw [show lines.dropLast ++ [(splitLast maxLength lastLine).1,
              (splitLast maxLength lastLine).2] =
            (lines.dropLast ++ [(splitLast maxLength lastLine).1]) ++
              [(splitLast maxLength lastLine).2] by simp,
          List.dropLast_concat] at hl
        rcases List.mem_append.mp hl with hl | hl
        · exact hinv l hl
        · rw [List.mem_singleton.mp hl]
          exact splitLast_fst_length ..
      · rw [if_neg hc] at h
        injection h with h
        subst h
        intro l hl
        have hdecomp : lines.dropLast ++ [lastLine] = lines :=
          List.dropLast_append_getLast? lastLine hg
        rw [← hdecomp] at hl
        rcases List.mem_append.mp hl with hl | hl
        · exact hinv l hl
        · rw [List.mem_singleton.mp hl]
          exact Nat.le_trans (Nat.le_of_not_lt hc) (Nat.le_add_right ..)

/-- If the last line is a space followed by a block `r` long enough to
keep the loop condition true and break-free in the scan window, one
iteration reproduces the same last line, so the loop never finishes,
whatever the fuel. -/
theorem splitLoop_stuck (maxLength : Nat) (r : List Char)
    (hlen : maxLength ≤ r.length)
    (hnb : ∀ c ∈ r.take maxLength, isBreakChar c = false) :
    ∀ (fuel : Nat) (pre : List (List Char)),
    splitLoop maxLength fuel (pre ++ [' ' :: r]) = none := by
  intro fuel
  induction fuel with
  | zero => intro pre; rfl
  | succ n ih =>
    intro pre
    have hcond : maxLength < (' ' :: r).length := by
      simp only [List.length_cons]
      exact Nat.lt_succ_of_le hlen
    have hsplit : splitLast maxLength (' ' :: r) = ([' '], ' ' :: r) := by
      unfold splitLast
      have htake : (' ' :: r).take (maxLength + 1) = ' ' :: r.take maxLength := by
        simp [List.take_cons]
      rw [htake]
      have : lastBreakIndex (' ' :: r.take maxLength) = some 0 := by
        simp only [lastBreakIndex]
        rw [lastBreakIndex_eq_none hnb]
        simp [isBreakChar]
      rw [this]
      simp
    rw [splitLoop, List.getLast?_concat]
    show (if maxLength < (' ' :: r).length then
        splitLoop maxLength n
          ((pre ++ [' ' :: r]).dropLast ++
            [(splitLast maxLength (' ' :: r)).1, (splitLast maxLength (' ' :: r)).2])
      else some (pre ++ [' ' :: r])) = none
    rw [if_pos hcond, hsplit, List.dropLast_concat]
    have : pre ++ [[' '], ' ' :: r] = (pre ++ [[' ']]) ++ [' ' :: r] := by simp
    rw [this]
    exact ih (pre ++ [[' ']])

/- ### Claims about the line wrapper -/

/-- C2 (counterexample): the claim that a produced line exceeds
`max_length` by at most one is false.  For the input "aaaaa" with
`max_length = 3` the forced split takes `max_length + 1 = 4` characters
and appends a hyphen, producing the line "aaaa-" of length 5 =
`max_length + 2`. -/
theorem C2_forced_split_counterexample :
    split_into_lines "aaaaa".toList 3 10 =
      some ["aaaa-".toList, " a".toList] ∧
    ¬ ("aaaa-".toList.length ≤ 3 + 1) := by
  constructor
  · decide
  · decide

/-- C2 (amended): for every input string and every `max_length ≥ 1`, on
any terminating run of `split_into_lines` every produced line has
length at most `max_length + 2`; the head of a forced split reaches
exactly `max_length + 2` (the first `max_length + 1` characters plus
the synthetic hyphen), and the head of a break split reaches at most
`max_length + 1`. -/
theorem C2_line_length_bound (s : List Char) (maxLength fuel : Nat)
    (out : List (List Char)) (hmax : 1 ≤ maxLength)
    (h : split_into_lines s maxLength fuel = some out) :
    ∀ l ∈ out, l.length ≤ maxLength + 2 := by
  unfold split_into_lines at h
  by_cases hs : s.isEmpty
  · rw [if_pos hs] at h
    injection h with h
    subst h
    intro l hl
    simp at hl
  · rw [if_neg hs] at h
    exact splitLoop_bound maxLength fuel [s] out h (by intro l hl; simp at hl)

/-- Witness for C2: a concrete terminating run whose lines are all
within the bound. -/
theorem C2_line_length_bound_witness :
    (1 ≤ 3) ∧
    split_into_lines "ab cd".toList 3 2 = some ["ab ".toList, " cd".toList] ∧
    "ab ".toList.length ≤ 3 + 2 :=
  ⟨by decide, by decide,
    C2_line_length_bound "ab cd".toList 3 2 ["ab ".toList, " cd".toList]
      (by decide) (by decide) "ab ".toList (by decide)⟩

/-- C3 (code bug): the rewrap loop does not terminate on every input.
On the input "aaaaaaa" (seven characters, no break characters) with
`max_length = 3`, the forced split leaves the last line " aaa"; every
later iteration finds the leading space at window index 0, pushes " "
and reproduces the same last line " aaa", so the loop never reaches a
state where the last line is short enough: the run returns `none` for
every amount of fuel. -/
theorem C3_wrap_loop_diverges :
    ∀ fuel : Nat, split_into_lines "aaaaaaa".toList 3 fuel = none := by
  intro fuel
  show splitLoop 3 fuel ["aaaaaaa".toList] = none
  cases fuel with
  | zero => rfl
  | succ n =>
    have step : splitLoop 3 (n + 1) ["aaaaaaa".toList] =
        splitLoop 3 n ["aaaa-".toList, ' ' :: "aaa".toList] := rfl
    rw [step]
    have : ["aaaa-".toList, ' ' :: "aaa".toList] =
        ["aaaa-".toList] ++ [' ' :: "aaa".toList] := rfl
    rw [this]
    exact splitLoop_stuck 3 "aaa".toList (by decide) (by decide) n ["aaaa-".toList]

/-- C10 (code bug): `split_into_lines` does not return normally on every
input: on "bbbbbbb" with `max_length = 3` the loop diverges exactly as
in the trace above, so no amount of fuel makes the embedded run
finish. -/
theorem C10_wrapper_no_normal_return :
    ∀ fuel : Nat, split_into_lines "bbbbbbb".toList 3 fuel = none := by
  intro fuel
  show splitLoop 3 fuel ["bbbbbbb".toList] = none
  cases fuel with
  | zero => rfl
  | succ n =>
    have step : splitLoop 3 (n + 1) ["bbbbbbb".toList] =
        splitLoop 3 n ["bbbb-".toList, ' ' :: "bbb".toList] := rfl
    rw [step]
    have : ["bbbb-".toList, ' ' :: "bbb".toList] =
        ["bbbb-".toList] ++ [' ' :: "bbb".toList] := rfl
    rw [this]
    exact splitLoop_stuck 3 "bbb".toList (by decide) (by decide) n ["bbbb-".toList]

/-- C8 (counterexample): the claim includes the empty string, but for
empty input the wrapper returns no lines at all rather than one line
equal to the input. -/
theorem C8_empty_input_counterexample :
    split_into_lines [] 5 1 = some [] ∧
    some ([] : List (List Char)) ≠ some [([] : List Char)] := by
  constructor
  · rfl
  · decide

/-- C8 (amended): for every string of length at most `max_length` and
any positive fuel, the wrapper returns immediately: no lines for the
empty string, and exactly one line equal to the input otherwise. -/
theorem C8_short_input_identity (s : List Char) (maxLength fuel : Nat)
    (hfuel : 1 ≤ fuel) (hlen : s.length ≤ maxLength) :
    split_into_lines s maxLength fuel = some (if s.isEmpty then [] else [s]) := by
  unfold split_into_lines
  by_cases hs : s.isEmpty
  · rw [if_pos hs, if_pos hs]
  · rw [if_neg hs, if_neg hs]
    cases fuel with
    | zero => exact absurd hfuel (by decide)
    | succ n =>
      rw [splitLoop]
      show (match ([s] : List (List Char)).getLast? with
        | none => some [s]
        | some lastLine =>
          if maxLength < lastLine.length then
            splitLoop maxLength n
              (([s] : List (List Char)).dropLast ++
                [(splitLast maxLength lastLine).1, (splitLast maxLength lastLine).2])
          else some [s]) = some [s]
      have hg : ([s] : List (List Char)).getLast? = some s := rfl
      rw [hg]
      show (if maxLength < s.length then
          splitLoop maxLength n
            (([s] : List (List Char)).dropLast ++
              [(splitLast maxLength s).1, (splitLast maxLength s).2])
        else some [s]) = some [s]
      rw [if_neg (Nat.not_lt.mpr hlen)]

/-- Witness for C8: a concrete two-character string under the bound
returns as the single produced line. -/
theorem C8_short_input_identity_witness :
    (1 ≤ 1) ∧ ("ab".toList.length ≤ 3) ∧
    split_into_lines "ab".toList 3 1 =
      some (if "ab".toList.isEmpty then [] else ["ab".toList]) :=
  ⟨by decide, by decide, C8_short_input_identity "ab".toList 3 1 (by decide) (by decide)⟩

/- ### Claims about the normalizer -/

/-- Removing the first "Pay on Account" entry from a payments list in
which exactly the displayed occurrence matches. -/
theorem removeFirstPayOnAccount_append (pre post : List Amount) (a : Amount)
    (ha : a.name = "Pay on Account")
    (hpre : ∀ b ∈ pre, b.name ≠ "Pay on Account") :
    removeFirstPayOnAccount (pre ++ a :: post) = some (a, pre ++ post) := by
  induction pre with
  | nil =>
    simp only [List.nil_append, removeFirstPayOnAccount]
    rw [if_pos (by simp [ha])]
  | cons b rest ih =>
    have hb : (b.name == "Pay on Account") = false := by
      simp [hpre b (List.mem_cons_self b rest)]
    rw [List.cons_append, removeFirstPayOnAccount, hb,
      if_neg (show ¬(false = true) by simp),
      ih (fun x hx => hpre x (List.mem_cons_of_mem b hx))]
    rfl

/-- C1 (confirmed): if the payments of a document contain exactly one
entry named "Pay on Account", whose value parses to cents `c` (of either
sign), then `pre_pass` succeeds and removes that entry from the
payments, appends exactly one new line item — empty code, quantity,
unit price and unit of measure, no discount, non-taxable — whose amount
is the absolute value formatted to two decimals and whose description
spells that amount in words, and replaces the whole totals list by the
single entry named "Total:" carrying the same two-decimal string. -/
theorem C1_pre_pass_deposit (parse : String → Option Int) (ntw : Nat → String)
    (r : ReceiptInfo) (pre post : List Amount) (v : String) (c : Int)
    (hpay : r.payments = pre ++ { name := "Pay on Account", value := v } :: post)
    (hpre : ∀ b ∈ pre, b.name ≠ "Pay on Account")
    (hpost : ∀ b ∈ post, b.name ≠ "Pay on Account")
    (hparse : parse v = some c) :
    pre_pass parse ntw r =
      ({ r with
          payments := pre ++ post,
          item_lines := r.item_lines ++
            [{ code := ""
               description :=
                 "Received as cash deposit the sum of " ++ ntw c.natAbs ++
                   " dollars for materials."
               quantity := ""
               unit_price := ""
               amount := formatCents c.natAbs
               uom := ""
               discount := none
               taxable := false }],
          totals := [{ name := "Total:", value := formatCents c.natAbs }] },
        true) := by
  unfold pre_pass
  rw [hpay, removeFirstPayOnAccount_append pre post _ rfl hpre]
  simp only [hparse]

/-- Witness for C1: a concrete document with a single
"Pay on Account" payment of "-150.00" (parsed by the concrete
`parseCents` model), normalized to a deposit line item and a single
"Total:" entry of "150.00". -/
theorem C1_pre_pass_deposit_witness :
    pre_pass parseCents (fun _ => "one hundred fifty")
      { title := "t", date := "d", company_name := "c", company_info_line := "i",
        customer_info := "u", transaction_number := "n", order_id := "o",
        vat_number := "v", doc_number := "7", doc_type := DocType.Receipt,
        item_lines := [], delivery_tickets := "", weigh_tickets := "",
        totals := [{ name := "Subtotal:", value := "150.00" }],
        payments := [{ name := "Pay on Account", value := "-150.00" }],
        amount_due := "", employee := "e", slogan := "s" } =
      ({ title := "t", date := "d", company_name := "c", company_info_line := "i",
         customer_info := "u", transaction_number := "n", order_id := "o",
         vat_number := "v", doc_number := "7", doc_type := DocType.Receipt,
         item_lines :=
           [{ code := ""
              description :=
                "Received as cash deposit the sum of one hundred fifty dollars for materials."
              quantity := ""
              unit_price := ""
              amount := "150.00"
              uom := ""
              discount := none
              taxable := false }],
         delivery_tickets := "", weigh_tickets := "",
         totals := [{ name := "Total:", value := "150.00" }],
         payments := [],
         amount_due := "", employee := "e", slogan := "s" }, true) := by
  have h := C1_pre_pass_deposit parseCents (fun _ => "one hundred fifty")
    { title := "t", date := "d", company_name := "c", company_info_line := "i",
      customer_info := "u", transaction_number := "n", order_id := "o",
      vat_number := "v", doc_number := "7", doc_type := DocType.Receipt,
      item_lines := [], delivery_tickets := "", weigh_tickets := "",
      totals := [{ name := "Subtotal:", value := "150.00" }],
      payments := [{ name := "Pay on Account", value := "-150.00" }],
      amount_due := "", employee := "e", slogan := "s" }
    [] [] "-150.00" (-15000) rfl (by intro b hb; simp at hb)
    (by intro b hb; simp at hb) (by decide)
  simpa using h

/-- C9 (confirmed): when the "Pay on Account" entry's value fails to
parse, `pre_pass` returns the error after already having removed that
entry from the payments, with the item lines and the totals left
untouched: the failure is not atomic with respect to the payments
field. -/
theorem C9_pre_pass_error_partial_mutation (parse : String → Option Int)
    (ntw : Nat → String) (r : ReceiptInfo) (pre post : List Amount) (v : String)
    (hpay : r.payments = pre ++ { name := "Pay on Account", value := v } :: post)
    (hpre : ∀ b ∈ pre, b.name ≠ "Pay on Account")
    (hparse : parse v = none) :
    (pre_pass parse ntw r).2 = false ∧
    (pre_pass parse ntw r).1.payments = pre ++ post ∧
    (pre_pass parse ntw r).1.item_lines = r.item_lines ∧
    (pre_pass parse ntw r).1.totals = r.totals := by
  unfold pre_pass
  rw [hpay, removeFirstPayOnAccount_append pre post _ rfl hpre]
  simp [hparse]

/-- Witness for C9: a concrete document whose "Pay on Account" value
"oops" fails the concrete parse; the entry is gone, the rest is
unchanged, and the result is the error. -/
theorem C9_pre_pass_error_witness :
    (pre_pass parseCents (fun _ => "zero")
        { title := "t", date := "d", company_name := "c", company_info_line := "i",
          customer_info := "u", transaction_number := "n", order_id := "o",
          vat_number := "v", doc_number := "7", doc_type := DocType.Invoice,
          item_lines := [], delivery_tickets := "", weigh_tickets := "",
          totals := [{ name := "Total:", value := "10.00" }],
          payments := [{ name := "Cash", value := "5.00" },
                       { name := "Pay on Account", value := "oops" }],
          amount_due := "", employee := "e", slogan := "s" }).2 = false ∧
    (pre_pass parseCents (fun _ => "zero")
        { title := "t", date := "d", company_name := "c", company_info_line := "i",
          customer_info := "u", transaction_number := "n", order_id := "o",
          vat_number := "v", doc_number := "7", doc_type := DocType.Invoice,
          item_lines := [], delivery_tickets := "", weigh_tickets := "",
          totals := [{ name := "Total:", value := "10.00" }],
          payments := [{ name := "Cash", value := "5.00" },
                       { name := "Pay on Account", value := "oops" }],
          amount_due := "", employee := "e", slogan := "s" }).1.payments =
      [{ name := "Cash", value := "5.00" }] ∧
    (pre_pass parseCents (fun _ => "zero")
        { title := "t", date := "d", company_name := "c", company_info_line := "i",
          customer_info := "u", transaction_number := "n", order_id := "o",
          vat_number := "v", doc_number := "7", doc_type := DocType.Invoice,
          item_lines := [], delivery_tickets := "", weigh_tickets := "",
          totals := [{ name := "Total:", value := "10.00" }],
          payments := [{ name := "Cash", value := "5.00" },
                       { name := "Pay on Account", value := "oops" }],
          amount_due := "", employee := "e", slogan := "s" }).1.totals =
      [{ name := "Total:", value := "10.00" }] := by
  have h := C9_pre_pass_error_partial_mutation parseCents (fun _ => "zero")
    { title := "t", date := "d", company_name := "c", company_info_line := "i",
      customer_info := "u", transaction_number := "n", order_id := "o",
      vat_number := "v", doc_number := "7", doc_type := DocType.Invoice,
      item_lines := [], delivery_tickets := "", weigh_tickets := "",
      totals := [{ name := "Total:", value := "10.00" }],
      payments := [{ name := "Cash", value := "5.00" },
                   { name := "Pay on Account", value := "oops" }],
      amount_due := "", employee := "e", slogan := "s" }
    [{ name := "Cash", value := "5.00" }] [] "oops" rfl
    (by intro b hb; simp at hb; subst hb; decide) (by decide)
  exact ⟨h.1, by simpa using h.2.1, h.2.2.2⟩

/- ### Claim about the layout selector -/

/-- C4 (confirmed): layout selection is the stated pure function of the
document type and the discount flags: `Standard` exactly for Invoice or
Quote documents with no discounted line, `StandardWithDiscounts`
exactly for Invoice or Quote documents with at least one discounted
line, and `Receipt` exactly for Receipt documents, discounts
regardless. -/
theorem C4_layout_selection (r : ReceiptInfo) :
    (layout_of r = DocLayout.Standard ↔
      ((r.doc_type = DocType.Invoice ∨ r.doc_type = DocType.Quote) ∧
        ∀ line ∈ r.item_lines, line.discount = none)) ∧
    (layout_of r = DocLayout.StandardWithDiscounts ↔
      ((r.doc_type = DocType.Invoice ∨ r.doc_type = DocType.Quote) ∧
        ∃ line ∈ r.item_lines, line.discount ≠ none)) ∧
    (layout_of r = DocLayout.Receipt ↔ r.doc_type = DocType.Receipt) := by
  obtain ⟨t, d, cn, ci, cu, tn, oi, vn, dn, dt, il, dtk, wtk, tot, pay, ad, emp, sl⟩ := r
  cases dt <;>
    by_cases hdisc : il.any (fun line => line.discount.isSome) <;>
      simp_all [layout_of, List.any_eq_true, Option.isSome_iff_ne_none,
        show (DocType.Invoice == DocType.Receipt) = false from rfl,
        show (DocType.Quote == DocType.Receipt) = false from rfl,
        show (DocType.Receipt == DocType.Receipt) = true from rfl]
  all_goals
    rw [if_neg (by rintro ⟨x, hx, hnone⟩; exact hnone (hdisc x hx))]
    decide

/- ### Claims about the typesetter's currency cells and totals block -/

/-- C5 (counterexample): the claim that an empty currency source string
emits nothing is false.  Under the Standard layout a line item with an
empty unit price still emits a text operation, namely the dollar sign
followed by eleven padding spaces. -/
theorem C5_empty_currency_counterexample :
    priceCellText DocLayout.Standard
      { code := "", description := "x", quantity := "", unit_price := "",
        amount := "", uom := "", discount := none, taxable := false } =
      some "$           " ∧
    some ("$           " : String) ≠ none := by
  exact ⟨rfl, by simp⟩

/-- C5 (amended): whenever the selected layout carries the column, the
currency cells are emitted unconditionally as the `lpad!` rendering —
the dollar sign followed by the source string right-justified in a
field of width 11 — so an empty source string renders as "$" plus
eleven spaces rather than as nothing; only a discount that is absent
(`None`) emits nothing. -/
theorem C5_currency_cell_rendering (line : ItemLine) :
    priceCellText DocLayout.Standard line = some (lpad line.unit_price) ∧
    priceCellText DocLayout.StandardWithDiscounts line = some (lpad line.unit_price) ∧
    priceCellText DocLayout.Receipt line = none ∧
    amountCellText DocLayout.Standard line = some (lpad line.amount) ∧
    amountCellText DocLayout.Receipt line = some (lpad line.amount) ∧
    discountCellText DocLayout.StandardWithDiscounts line = line.discount.map lpad ∧
    discountCellText DocLayout.Standard line = none ∧
    lpad "" = "$           " ∧
    (∀ s : String, (lpad s).length = 1 + max 11 s.length) := by
  refine ⟨rfl, rfl, rfl, rfl, rfl, ?_, rfl, rfl, ?_⟩
  · cases hd : line.discount with
    | none => simp [discountCellText, disc_index, hd]
    | some d => simp [discountCellText, disc_index, hd]
  · intro s
    simp only [lpad, String.length_append, String.length_mk, List.length_replicate]
    have h1 : ("$" : String).length = 1 := rfl
    rw [h1]
    omega

/-- C6 (counterexample): the claim that a Totals entry named "Tax:" has
its label rendered as "VAT:" is false: the totals loop renders every
non-empty name verbatim, so the entry ⟨"Tax:", "30.00"⟩ is rendered
with label "Tax:" in the regular font. -/
theorem C6_tax_label_counterexample :
    totalsRowLabel { name := "Tax:", value := "30.00" } =
      some ("Tax:", FontKind.regular) ∧
    ("Tax:" : String) ≠ "VAT:" := by
  exact ⟨rfl, by decide⟩

/-- C6 (amended): in the totals block every entry with a non-empty name
has its label rendered verbatim — in particular "Tax:" stays "Tax:",
there is no relabeling to "VAT:" — and the bold font is used exactly
for the entry literally named "Total:". -/
theorem C6_totals_label_verbatim (name value : String) (h : name ≠ "") :
    (totalsRowLabel { name := name, value := value }).map Prod.fst = some name ∧
    ((totalsRowLabel { name := name, value := value }).map Prod.snd =
        some FontKind.bold ↔ name = "Total:") := by
  have hne : name.isEmpty = false := by
    cases he : name.isEmpty
    · rfl
    · exact absurd ((String.isEmpty_iff name).mp he) h
  unfold totalsRowLabel
  simp only [hne, Bool.false_eq_true, if_false, Option.map_some']
  refine ⟨by trivial, ?_⟩
  by_cases ht : name = "Total:"
  · simp [ht]
  · have : (name == "Total:") = false := by simp [ht]
    simp [this, ht]

/-- Witness for C6: the amended theorem applied to the entry
⟨"Tax:", "30.00"⟩: the label stays "Tax:" and is not bold. -/
theorem C6_totals_label_verbatim_witness :
    ("Tax:" : String) ≠ "" ∧
    (totalsRowLabel { name := "Tax:", value := "30.00" }).map Prod.fst =
      some "Tax:" ∧
    ((totalsRowLabel { name := "Tax:", value := "30.00" }).map Prod.snd =
        some FontKind.bold ↔ ("Tax:" : String) = "Total:") := by
  have h := C6_totals_label_verbatim "Tax:" "30.00" (by decide)
  exact ⟨by decide, h.1, h.2⟩

/- ### Claims about the Table-3 extraction -/

theorem ticketConcat_ne_nil (s : List Char) (rest : List (List Char)) :
    ticketConcat (s :: rest) ≠ [] := by
  simp [ticketConcat]

theorem foldl_ticket_eq (xs : List (List Char)) :
    ∀ a : List Char,
    xs.foldl (fun acc s => acc ++ ticketLine s ++ [' ']) a = a ++ ticketConcat xs := by
  induction xs with
  | nil => intro a; simp [ticketConcat]
  | cons s rest ih =>
    intro a
    simp only [List.foldl_cons, ticketConcat]
    rw [ih (a ++ ticketLine s ++ [' '])]
    simp [List.append_assoc]

theorem ticketConcat_dropLast (xs : List (List Char)) :
    (ticketConcat xs).dropLast = sepJoin (xs.map ticketLine) := by
  induction xs with
  | nil => rfl
  | cons s rest ih =>
    cases rest with
    | nil =>
      show (ticketLine s ++ [' '] ++ []).dropLast = ticketLine s
      rw [List.append_nil, List.dropLast_concat]
    | cons s2 rest2 =>
      show (ticketLine s ++ [' '] ++ ticketConcat (s2 :: rest2)).dropLast =
        ticketLine s ++ ' ' :: sepJoin ((s2 :: rest2).map ticketLine)
      rw [List.append_assoc,
        List.dropLast_append_of_ne_nil _
          (show [' '] ++ ticketConcat (s2 :: rest2) ≠ [] by simp),
        List.dropLast_append_of_ne_nil _ (ticketConcat_ne_nil s2 rest2),
        ih]
      rfl

/-- The delivery-ticket fold followed by the final `pop` is exactly a
single-space join of the filtered, trimmed descriptions. -/
theorem joinTickets_eq_sepJoin (xs : List (List Char)) :
    joinTickets xs = sepJoin (xs.map ticketLine) := by
  unfold joinTickets
  rw [foldl_ticket_eq xs [], List.nil_append, ticketConcat_dropLast]

/-- The delivery-ticket captures of the classification loop are the
descriptions of the code-"2300" rows, in order. -/
theorem classifyRows_dt (rows : List Table3Row) :
    (classifyRows rows).2.1 =
      (rows.filter (fun r => r.code == "2300".toList)).map Table3Row.description := by
  induction rows with
  | nil => rfl
  | cons r rest ih =>
    by_cases h : r.code = ['2', '3', '0', '0']
    · simp [classifyRows, h, List.filter_cons, ih]
    · by_cases h2 : r.code = ['2', '3', '0', '1']
      · simp [classifyRows, h, h2, List.filter_cons, ih]
      · simp [classifyRows, h, h2, List.filter_cons, ih]

/-- The item lines of the classification loop come exactly from the
rows whose code is neither sentinel, in order. -/
theorem classifyRows_items (rows : List Table3Row) :
    (classifyRows rows).1 =
      (rows.filter (fun r =>
          !(r.code == "2300".toList) && !(r.code == "2301".toList))).map
        (fun r =>
          { code := r.code, description := r.description, quantity := r.quantity,
            price := r.price, amount := r.amount : ItemLineMain }) := by
  induction rows with
  | nil => rfl
  | cons r rest ih =>
    by_cases h : r.code = ['2', '3', '0', '0']
    · simp [classifyRows, h, List.filter_cons, ih]
    · by_cases h2 : r.code = ['2', '3', '0', '1']
      · simp [classifyRows, h, h2, List.filter_cons, ih]
      · simp [classifyRows, h, h2, List.filter_cons, ih]

/-- C7 (counterexample): the claim's scenario value is wrong: the
filter retains ASCII punctuation, so the code-"2300" row with
description "DT#4821" contributes "#4821" — the hash mark survives —
and not "4821". -/
theorem C7_hash_retained_counterexample :
    (processTable3
        [{ code := "2300".toList, description := "DT#4821".toList,
           quantity := "1".toList, price := [], amount := [] }]).2.1 =
      "#4821".toList ∧
    "#4821".toList ≠ "4821".toList := by
  exact ⟨by decide, by decide⟩

/-- C7 (amended): code-"2300" rows produce no item line and their
descriptions, filtered to digits, ASCII punctuation and whitespace and
trimmed, are joined with single spaces into the delivery-tickets
aggregate; the row with code "2300" and description "DT#4821"
contributes "#4821" to that aggregate. -/
theorem C7_delivery_ticket_rows (rows : List Table3Row) :
    (processTable3 rows).1 =
      (rows.filter (fun r =>
          !(r.code == "2300".toList) && !(r.code == "2301".toList))).map
        (fun r =>
          { code := r.code, description := r.description, quantity := r.quantity,
            price := r.price, amount := r.amount : ItemLineMain }) ∧
    (processTable3 rows).2.1 =
      sepJoin ((rows.filter (fun r => r.code == "2300".toList)).map
        (fun r => trimChars (r.description.filter keepTicketChar))) ∧
    processTable3
        [{ code := "2300".toList, description := "DT#4821".toList,
           quantity := "1".toList, price := [], amount := [] }] =
      ([], "#4821".toList, []) := by
  refine ⟨classifyRows_items rows, ?_, by decide⟩
  show joinTickets (classifyRows rows).2.1 = _
  rw [joinTickets_eq_sepJoin, classifyRows_dt, List.map_map]
  rfl
